import Mathlib

/-!
Formal model of the video-trimmer export command-construction and
progress-tracking subsystem.

The definitions below are a shallow embedding of the TypeScript sources:
  * the ffmpeg service (`buildDrawTextFilter`, `buildFfmpegArgs`,
    `exportWithProgress` stderr scanning and settlement),
  * the yt-dlp download service (`startDownload` stdout scanning and
    settlement),
  * the ffprobe metadata helpers (`safeEvalFrac`, the fps extraction of
    `extractVideoMeta`),
  * the `export:start` IPC handler cleanup discipline from the main process.

JavaScript numbers are modelled as rationals (every numeric value the
subsystem manipulates is far inside the exactly-representable range of a
double, and every number it renders to text has a terminating decimal
expansion). Strings are Lean strings; the few regular expressions the code
uses are modelled by hand-rolled total scanners that reproduce the
semantics of those concrete patterns, including leftmost-match scanning
and the relevant backtracking behaviour.
-/

attribute [local semireducible] Rat.sub Rat.add Rat.mul Rat.inv Rat.ofScientific

/-- The single-quote character, written by code point. -/
def squoteChar : Char := Char.ofNat 39

/-- The backslash character, written by code point. -/
def backslashChar : Char := Char.ofNat 92

/-- The single-quote character as a string. -/
def squote : String := String.singleton squoteChar

/-- Replace every occurrence of the character `c` by the character list
`rep`; this is JavaScript `String#replace` with a global single-character
regular expression. -/
def replaceAllChar (c : Char) (rep : List Char) : List Char → List Char
  | [] => []
  | x :: xs => (if x = c then rep else [x]) ++ replaceAllChar c rep xs

/-- Remove the first occurrence of the hash character; this is JavaScript
`String#replace` with a plain one-character string pattern, which replaces
only the first occurrence. -/
def removeFirstHash : List Char → List Char
  | [] => []
  | x :: xs => if x = '#' then xs else x :: removeFirstHash xs

/-- `escapeFfmpeg` from the ffmpeg service: escape backslashes, then
colons, then single quotes, each via a global single-character replace. -/
def escapeFfmpeg (text : String) : String :=
  String.mk
    (replaceAllChar squoteChar [backslashChar, squoteChar]
      (replaceAllChar ':' [backslashChar, ':']
        (replaceAllChar backslashChar [backslashChar, backslashChar] text.data)))

/-- Fractional decimal digits of `r / d` (with `r < d`), stopping once the
remainder is zero; `fuel` bounds the expansion. Every value the modelled
code renders has a terminating decimal expansion well inside the fuel. -/
def fracDigits : Nat → Nat → Nat → List Char
  | 0, _, _ => []
  | _ + 1, 0, _ => []
  | fuel + 1, r, d => Nat.digitChar (r * 10 / d) :: fracDigits fuel (r * 10 % d) d

/-- JavaScript `Number#toString` (also `String(n)` and template
interpolation) for the rationals this model manipulates: optional sign,
decimal integer part, and a fractional part only when nonzero. -/
def jsNumToString (q : ℚ) : String :=
  let n := q.num.natAbs
  let d := q.den
  let ip := n / d
  let r := n % d
  let sign := if q.num < 0 then "-" else ""
  if r = 0 then sign ++ toString ip
  else sign ++ toString ip ++ "." ++ String.mk (fracDigits 30 r d)

/-- JavaScript truncation toward zero (the integral part of a float). -/
def jsTrunc (q : ℚ) : Int :=
  if q.num < 0 then -(Int.ofNat (q.num.natAbs / q.den)) else Int.ofNat (q.num.natAbs / q.den)

/-- Wrap an integer into the signed 32-bit range, as JavaScript `ToInt32`. -/
def toInt32 (n : Int) : Int := (n + 2 ^ 31) % 2 ^ 32 - 2 ^ 31

/-- JavaScript `x | 0`: truncate toward zero and wrap to a signed 32-bit
integer. -/
def jsOrZero (q : ℚ) : Int := toInt32 (jsTrunc q)

/-- Watermark anchor corner, from the shared `ProjectStore` type. -/
inductive Anchor where
  | topLeft
  | topRight
  | bottomLeft
  | bottomRight
  deriving DecidableEq

/-- Watermark configuration, from the shared `ProjectStore` type. -/
structure Watermark where
  text : String
  color : String
  opacity : ℚ
  fontSizePx : ℚ
  anchor : Anchor
  offsetX : ℚ
  offsetY : ℚ

/-- The quality knob of the export settings (only `value` is consumed by
the command builder). -/
structure Quality where
  value : ℚ

/-- Export settings, from the shared `ProjectStore` type (the source field
`export` is a Lean keyword, hence `exportCfg` below). -/
structure ExportSettings where
  useHardwareAccel : Bool
  quality : Quality

/-- The project store consumed by the command builder. -/
structure ProjectStore where
  watermark : Watermark
  exportCfg : ExportSettings

/-- `ExportOptions` from the ffmpeg service. -/
structure ExportOptions where
  input : String
  output : String
  startSec : ℚ
  endSec : ℚ
  project : ProjectStore
  fontFile : Option String
  wmImagePath : Option String

/-- `buildDrawTextFilter` from the ffmpeg service: the drawtext filter
string for the live-text-drawing watermark strategy. -/
def buildDrawTextFilter (project : ProjectStore) (fontFile : Option String) : String :=
  let wm := project.watermark
  let rgb := String.mk (removeFirstHash wm.color.data)
  let alpha := wm.opacity
  let fs := max 1 (jsOrZero wm.fontSizePx)
  let x := if wm.anchor = Anchor.topLeft ∨ wm.anchor = Anchor.bottomLeft
    then jsNumToString wm.offsetX
    else "w-tw-" ++ jsNumToString wm.offsetX
  let y := if wm.anchor = Anchor.topLeft ∨ wm.anchor = Anchor.topRight
    then jsNumToString wm.offsetY
    else "h-th-" ++ jsNumToString wm.offsetY
  let fontParam := match fontFile with
    | some f => ":fontfile=" ++ squote ++ escapeFfmpeg f ++ squote
    | none => ""
  let style := ":shadowcolor=000000@0.6:shadowx=2:shadowy=2:box=1:boxcolor=000000@0.35:boxborderw=10"
  "drawtext=text=" ++ squote ++ escapeFfmpeg wm.text ++ squote ++ fontParam ++
    ":fontsize=" ++ toString fs ++ ":fontcolor=" ++ rgb ++ "@" ++ jsNumToString alpha ++
    style ++ ":x=" ++ x ++ ":y=" ++ y

/-- The overlay filter graph built inline by `buildFfmpegArgs` for the
raster-overlay watermark strategy. -/
def overlayFilter (wm : Watermark) : String :=
  let x := if wm.anchor = Anchor.topLeft ∨ wm.anchor = Anchor.bottomLeft
    then jsNumToString wm.offsetX
    else "main_w-overlay_w-" ++ jsNumToString wm.offsetX
  let y := if wm.anchor = Anchor.topLeft ∨ wm.anchor = Anchor.topRight
    then jsNumToString wm.offsetY
    else "main_h-overlay_h-" ++ jsNumToString wm.offsetY
  "[1:v]format=rgba,setsar=1[wm];[0:v][wm]overlay=" ++ x ++ ":" ++ y ++ ":shortest=1[v]"

/-- `buildFfmpegArgs` from the ffmpeg service: the complete, ordered ffmpeg
argument vector for an export request. -/
def buildFfmpegArgs (opts : ExportOptions) : List String :=
  let dur := max 0 (opts.endSec - opts.startSec)
  ["-hide_banner", "-y"] ++
  ["-i", opts.input] ++
  (match opts.wmImagePath with
   | some p => ["-stream_loop", "-1", "-i", p]
   | none => []) ++
  ["-ss", jsNumToString opts.startSec, "-t", jsNumToString dur] ++
  (match opts.wmImagePath with
   | some _ => ["-filter_complex", overlayFilter opts.project.watermark,
                "-map", "[v]", "-map", "0:a?"]
   | none => ["-vf", buildDrawTextFilter opts.project opts.fontFile]) ++
  (if opts.project.exportCfg.useHardwareAccel then
    ["-c:v", "h264_nvenc", "-preset", "p5", "-cq",
     jsNumToString opts.project.exportCfg.quality.value]
  else
    ["-c:v", "libx264", "-preset", "medium", "-crf",
     jsNumToString opts.project.exportCfg.quality.value]) ++
  ["-pix_fmt", "yuv420p"] ++
  ["-movflags", "+faststart"] ++
  ["-shortest"] ++
  ["-c:a", "aac", "-b:a", "192k", opts.output]

/-- The encoder/normalization/audio tail of the argument vector (source
lines after the watermark branch), shared verbatim by both strategies. -/
def encoderTail (opts : ExportOptions) : List String :=
  (if opts.project.exportCfg.useHardwareAccel then
    ["-c:v", "h264_nvenc", "-preset", "p5", "-cq",
     jsNumToString opts.project.exportCfg.quality.value]
  else
    ["-c:v", "libx264", "-preset", "medium", "-crf",
     jsNumToString opts.project.exportCfg.quality.value]) ++
  ["-pix_fmt", "yuv420p"] ++
  ["-movflags", "+faststart"] ++
  ["-shortest"] ++
  ["-c:a", "aac", "-b:a", "192k", opts.output]

/-- Scan a list of arguments for a flag immediately followed by a given
value. -/
def hasFlagPair : List String → String → String → Bool
  | a :: b :: rest, f, v => (a == f && b == v) || hasFlagPair (b :: rest) f v
  | _, _, _ => false

/-- Whether `pat` is a prefix of `l` (character lists). -/
def hasPrefixL : List Char → List Char → Bool
  | [], _ => true
  | _ :: _, [] => false
  | p :: ps, c :: cs => p == c && hasPrefixL ps cs

/-- Whether `pat` occurs as a contiguous substring of `l`. -/
def hasSubstr (pat : List Char) : List Char → Bool
  | [] => pat.isEmpty
  | c :: rest => hasPrefixL pat (c :: rest) || hasSubstr pat rest

/-- The project of the end-to-end scenario of the spec: bottom-right
anchored copyright text, offsets 24, software encoding at quality 18. The
fields the scenario leaves open (color, opacity, font size) are fixed to
arbitrary concrete values. -/
def scenarioProject : ProjectStore :=
  { watermark :=
      { text := "© Watermark", color := "#FFFFFF", opacity := 0.8, fontSizePx := 28,
        anchor := Anchor.bottomRight, offsetX := 24, offsetY := 24 },
    exportCfg := { useHardwareAccel := false, quality := { value := 18 } } }

/-- The export request of the end-to-end scenario: trim window from 2 to
7.5 seconds, no raster path. -/
def scenarioOpts : ExportOptions :=
  { input := "in.mp4", output := "out.mp4", startSec := 2, endSec := 7.5,
    project := scenarioProject, fontFile := none, wmImagePath := none }

/-- The scenario request with a pre-rendered raster watermark supplied. -/
def rasterOpts : ExportOptions :=
  { input := "in.mp4", output := "out.mp4", startSec := 2, endSec := 7.5,
    project := scenarioProject, fontFile := none, wmImagePath := some "wm.png" }

/-- Structural form of the built arguments when a raster watermark path is
supplied. -/
theorem buildFfmpegArgs_raster_eq (opts : ExportOptions) (p : String)
    (h : opts.wmImagePath = some p) :
    buildFfmpegArgs opts =
      ["-hide_banner", "-y", "-i", opts.input, "-stream_loop", "-1", "-i", p,
       "-ss", jsNumToString opts.startSec,
       "-t", jsNumToString (max 0 (opts.endSec - opts.startSec))] ++
      ["-filter_complex", overlayFilter opts.project.watermark,
       "-map", "[v]", "-map", "0:a?"] ++
      encoderTail opts := by
  simp [buildFfmpegArgs, encoderTail, h]

/-- Structural form of the built arguments when no raster watermark path is
supplied. -/
theorem buildFfmpegArgs_text_eq (opts : ExportOptions)
    (h : opts.wmImagePath = none) :
    buildFfmpegArgs opts =
      ["-hide_banner", "-y", "-i", opts.input,
       "-ss", jsNumToString opts.startSec,
       "-t", jsNumToString (max 0 (opts.endSec - opts.startSec))] ++
      ["-vf", buildDrawTextFilter opts.project opts.fontFile] ++
      encoderTail opts := by
  simp [buildFfmpegArgs, encoderTail, h]

/-- C1: with a raster watermark supplied, the argument vector starts with
the global flags, declares the primary input, then the looped secondary
watermark input, then the trim flags, and ends with the audio encoder
flags and the destination path. -/
theorem buildFfmpegArgs_raster_input_ordering (opts : ExportOptions) (p : String)
    (h : opts.wmImagePath = some p) :
    ∃ mid, buildFfmpegArgs opts =
      ["-hide_banner", "-y"] ++ ["-i", opts.input] ++
      ["-stream_loop", "-1", "-i", p] ++
      ["-ss", jsNumToString opts.startSec,
       "-t", jsNumToString (max 0 (opts.endSec - opts.startSec))] ++
      mid ++ ["-c:a", "aac", "-b:a", "192k", opts.output] := by
  rw [buildFfmpegArgs_raster_eq opts p h]
  refine ⟨["-filter_complex", overlayFilter opts.project.watermark,
           "-map", "[v]", "-map", "0:a?"] ++
          (if opts.project.exportCfg.useHardwareAccel then
            ["-c:v", "h264_nvenc", "-preset", "p5", "-cq",
             jsNumToString opts.project.exportCfg.quality.value]
          else
            ["-c:v", "libx264", "-preset", "medium", "-crf",
             jsNumToString opts.project.exportCfg.quality.value]) ++
          ["-pix_fmt", "yuv420p", "-movflags", "+faststart", "-shortest"], ?_⟩
  simp [encoderTail]

/-- Witness for C1 at a concrete raster request. -/
theorem buildFfmpegArgs_raster_input_ordering_witness :
    ∃ mid, buildFfmpegArgs rasterOpts =
      ["-hide_banner", "-y"] ++ ["-i", rasterOpts.input] ++
      ["-stream_loop", "-1", "-i", "wm.png"] ++
      ["-ss", jsNumToString rasterOpts.startSec,
       "-t", jsNumToString (max 0 (rasterOpts.endSec - rasterOpts.startSec))] ++
      mid ++ ["-c:a", "aac", "-b:a", "192k", rasterOpts.output] :=
  buildFfmpegArgs_raster_input_ordering rasterOpts "wm.png" rfl

/-- C2: the built arguments contain exactly one watermark strategy block:
the overlay filter graph when a raster path is supplied, the drawtext
filter otherwise; in either case the rest of the vector is the same shared
prefix and encoder tail, so the two strategies are never combined and one
is always present. -/
theorem buildFfmpegArgs_exactly_one_watermark_strategy (opts : ExportOptions) :
    (∀ p, opts.wmImagePath = some p →
      buildFfmpegArgs opts =
        ["-hide_banner", "-y", "-i", opts.input, "-stream_loop", "-1", "-i", p,
         "-ss", jsNumToString opts.startSec,
         "-t", jsNumToString (max 0 (opts.endSec - opts.startSec))] ++
        ["-filter_complex", overlayFilter opts.project.watermark,
         "-map", "[v]", "-map", "0:a?"] ++
        encoderTail opts) ∧
    (opts.wmImagePath = none →
      buildFfmpegArgs opts =
        ["-hide_banner", "-y", "-i", opts.input,
         "-ss", jsNumToString opts.startSec,
         "-t", jsNumToString (max 0 (opts.endSec - opts.startSec))] ++
        ["-vf", buildDrawTextFilter opts.project opts.fontFile] ++
        encoderTail opts) :=
  ⟨fun p h => buildFfmpegArgs_raster_eq opts p h,
   fun h => buildFfmpegArgs_text_eq opts h⟩

/-- Witness for C2 at concrete raster and text requests. -/
theorem buildFfmpegArgs_exactly_one_watermark_strategy_witness :
    buildFfmpegArgs rasterOpts =
      ["-hide_banner", "-y", "-i", rasterOpts.input, "-stream_loop", "-1", "-i", "wm.png",
       "-ss", jsNumToString rasterOpts.startSec,
       "-t", jsNumToString (max 0 (rasterOpts.endSec - rasterOpts.startSec))] ++
      ["-filter_complex", overlayFilter rasterOpts.project.watermark,
       "-map", "[v]", "-map", "0:a?"] ++
      encoderTail rasterOpts ∧
    buildFfmpegArgs scenarioOpts =
      ["-hide_banner", "-y", "-i", scenarioOpts.input,
       "-ss", jsNumToString scenarioOpts.startSec,
       "-t", jsNumToString (max 0 (scenarioOpts.endSec - scenarioOpts.startSec))] ++
      ["-vf", buildDrawTextFilter scenarioOpts.project scenarioOpts.fontFile] ++
      encoderTail scenarioOpts :=
  ⟨(buildFfmpegArgs_exactly_one_watermark_strategy rasterOpts).1 "wm.png" rfl,
   (buildFfmpegArgs_exactly_one_watermark_strategy scenarioOpts).2 rfl⟩

/-- C3: the argument vector always carries a -t flag whose value is the
clamped duration; the clamped duration is never negative, and whenever the
trim window is proper it equals end minus start. -/
theorem buildFfmpegArgs_trim_flag (opts : ExportOptions) :
    (∃ pre post, buildFfmpegArgs opts =
      pre ++ ["-t", jsNumToString (max 0 (opts.endSec - opts.startSec))] ++ post) ∧
    0 ≤ max 0 (opts.endSec - opts.startSec) ∧
    (opts.startSec < opts.endSec →
      max 0 (opts.endSec - opts.startSec) = opts.endSec - opts.startSec) := by
  refine ⟨?_, le_max_left 0 _, fun h => max_eq_right (by linarith)⟩
  cases h : opts.wmImagePath with
  | some p =>
    refine ⟨["-hide_banner", "-y", "-i", opts.input, "-stream_loop", "-1", "-i", p,
             "-ss", jsNumToString opts.startSec],
            ["-filter_complex", overlayFilter opts.project.watermark,
             "-map", "[v]", "-map", "0:a?"] ++ encoderTail opts, ?_⟩
    rw [buildFfmpegArgs_raster_eq opts p h]
    simp
  | none =>
    refine ⟨["-hide_banner", "-y", "-i", opts.input,
             "-ss", jsNumToString opts.startSec],
            ["-vf", buildDrawTextFilter opts.project opts.fontFile] ++ encoderTail opts, ?_⟩
    rw [buildFfmpegArgs_text_eq opts h]
    simp

/-- Witness for C3 at the concrete scenario request, discharging the
proper-window hypothesis. -/
theorem buildFfmpegArgs_trim_flag_witness :
    (∃ pre post, buildFfmpegArgs scenarioOpts =
      pre ++ ["-t", jsNumToString (max 0 (scenarioOpts.endSec - scenarioOpts.startSec))] ++ post) ∧
    max 0 (scenarioOpts.endSec - scenarioOpts.startSec) =
      scenarioOpts.endSec - scenarioOpts.startSec :=
  ⟨(buildFfmpegArgs_trim_flag scenarioOpts).1,
   (buildFfmpegArgs_trim_flag scenarioOpts).2.2 (by decide)⟩

set_option maxRecDepth 8192 in
/-- C4: the end-to-end scenario yields a -t flag of 5.5 seconds, a
drawtext filter positioned at width minus text width minus 24 and height
minus text height minus 24, and software encoding with constant rate
factor 18. -/
theorem buildFfmpegArgs_endToEnd_scenario :
    hasFlagPair (buildFfmpegArgs scenarioOpts) "-t" "5.5" = true ∧
    hasFlagPair (buildFfmpegArgs scenarioOpts) "-vf"
      (buildDrawTextFilter scenarioProject none) = true ∧
    hasSubstr (String.data ":x=w-tw-24:y=h-th-24")
      (String.data (buildDrawTextFilter scenarioProject none)) = true ∧
    hasFlagPair (buildFfmpegArgs scenarioOpts) "-c:v" "libx264" = true ∧
    hasFlagPair (buildFfmpegArgs scenarioOpts) "-crf" "18" = true := by
  decide

/-- Maximal leading run of decimal digits, and the rest. -/
def digitSpan (l : List Char) : List Char × List Char :=
  (l.takeWhile Char.isDigit, l.dropWhile Char.isDigit)

/-- Numeric value of a run of decimal digit characters. -/
def natOfDigits (ds : List Char) : Nat :=
  ds.foldl (fun acc c => acc * 10 + (c.toNat - 48)) 0

/-- Match of the ffmpeg elapsed-time pattern (literal time=, digits, colon,
digits, colon, digits with an optional dot and further digits) anchored at
the head of the list. Returns the four captured digit groups: hours,
minutes, integral seconds, fractional seconds. The greedy digit runs of
the pattern are deterministic here, since no alternative continuation can
succeed after shrinking a run. -/
def timeAt (l : List Char) : Option (List Char × List Char × List Char × List Char) :=
  match l with
  | 't' :: 'i' :: 'm' :: 'e' :: '=' :: r0 =>
    let (d1, r1) := digitSpan r0
    if d1 = [] then none else
    match r1 with
    | ':' :: r2 =>
      let (d2, r3) := digitSpan r2
      if d2 = [] then none else
      match r3 with
      | ':' :: r4 =>
        let (d3, r5) := digitSpan r4
        if d3 = [] then none else
        match r5 with
        | '.' :: r6 => some (d1, d2, d3, (digitSpan r6).1)
        | _ => some (d1, d2, d3, [])
      | _ => none
    | _ => none
  | _ => none

/-- Leftmost match of the elapsed-time pattern within a chunk, as a
JavaScript regular-expression exec scanning start positions left to
right. -/
def findTimeMatch : List Char → Option (List Char × List Char × List Char × List Char)
  | [] => none
  | c :: rest =>
    match timeAt (c :: rest) with
    | some v => some v
    | none => findTimeMatch rest

/-- Value denoted by integral and fractional digit groups, as JavaScript
parseFloat or parseInt of captured digit text. -/
def parseFloatOfDigits (ip fp : List Char) : ℚ :=
  (natOfDigits ip : ℚ) + (natOfDigits fp : ℚ) / 10 ^ fp.length

/-- Total elapsed seconds denoted by an elapsed-time match:
hours times 3600 plus minutes times 60 plus seconds. -/
def timeVal (m : List Char × List Char × List Char × List Char) : ℚ :=
  (natOfDigits m.1 : ℚ) * 3600 + (natOfDigits m.2.1 : ℚ) * 60 +
    parseFloatOfDigits m.2.2.1 m.2.2.2

/-- First elapsed-time marker of one stderr chunk, in seconds. -/
def parseTimeSec (chunk : String) : Option ℚ :=
  (findTimeMatch chunk.data).map timeVal

/-- One stderr chunk of the export progress scanner of exportWithProgress:
the updated monotonic lastRatio state, and the ratio reported to the
progress callback for this chunk if the callback fires. -/
def stepChunk (targetDur lastRatio : ℚ) (chunk : String) : ℚ × Option ℚ :=
  match parseTimeSec chunk with
  | some sec =>
    if 0 < targetDur then
      let newRatio := max lastRatio (min 1 (sec / targetDur))
      (newRatio, some newRatio)
    else (lastRatio, none)
  | none => (lastRatio, none)

/-- All ratios reported across a sequence of stderr chunks, threading the
monotonic lastRatio state. -/
def runChunks (targetDur : ℚ) (lastRatio : ℚ) : List String → List ℚ
  | [] => []
  | c :: cs =>
    match stepChunk targetDur lastRatio c with
    | (r, some v) => v :: runChunks targetDur r cs
    | (r, none) => runChunks targetDur r cs

/-- The report stream of one exportWithProgress run: the target duration
is the clamped trim duration and lastRatio starts at zero. -/
def exportReports (startSec endSec : ℚ) (chunks : List String) : List ℚ :=
  runChunks (max 0 (endSec - startSec)) 0 chunks

/-- Every reported ratio dominates the incoming lastRatio state. -/
theorem runChunks_ge (d : ℚ) (chunks : List String) :
    ∀ last, ∀ r ∈ runChunks d last chunks, last ≤ r := by
  induction chunks with
  | nil => intro last r hr; simp [runChunks] at hr
  | cons c cs ih =>
    intro last r hr
    unfold runChunks at hr
    cases hm : parseTimeSec c with
    | none =>
      simp only [stepChunk, hm] at hr
      exact ih last r hr
    | some sec =>
      by_cases hd : 0 < d
      · simp only [stepChunk, hm, if_pos hd] at hr
        rcases List.mem_cons.mp hr with h | h
        · exact h ▸ le_max_left _ _
        · exact le_trans (le_max_left _ _) (ih _ r h)
      · simp only [stepChunk, hm, if_neg hd] at hr
        exact ih last r hr

/-- Reported ratios stay within the interval into which the state was
clamped. -/
theorem runChunks_bounds (d : ℚ) (chunks : List String) :
    ∀ last, 0 ≤ last → last ≤ 1 →
    ∀ r ∈ runChunks d last chunks, 0 ≤ r ∧ r ≤ 1 := by
  induction chunks with
  | nil => intro last _ _ r hr; simp [runChunks] at hr
  | cons c cs ih =>
    intro last h0 h1 r hr
    unfold runChunks at hr
    cases hm : parseTimeSec c with
    | none =>
      simp only [stepChunk, hm] at hr
      exact ih last h0 h1 r hr
    | some sec =>
      by_cases hd : 0 < d
      · simp only [stepChunk, hm, if_pos hd] at hr
        have hnew0 : 0 ≤ max last (min 1 (sec / d)) := le_trans h0 (le_max_left _ _)
        have hnew1 : max last (min 1 (sec / d)) ≤ 1 := max_le h1 (min_le_left _ _)
        rcases List.mem_cons.mp hr with h | h
        · exact h ▸ ⟨hnew0, hnew1⟩
        · exact ih _ hnew0 hnew1 r h
      · simp only [stepChunk, hm, if_neg hd] at hr
        exact ih last h0 h1 r hr

/-- The report stream is a nondecreasing chain. -/
theorem runChunks_chain (d : ℚ) (chunks : List String) :
    ∀ last, List.Chain' (· ≤ ·) (runChunks d last chunks) := by
  induction chunks with
  | nil => intro last; simp [runChunks]
  | cons c cs ih =>
    intro last
    unfold runChunks
    cases hm : parseTimeSec c with
    | none => simpa only [stepChunk, hm] using ih last
    | some sec =>
      by_cases hd : 0 < d
      · simp only [stepChunk, hm, if_pos hd]
        refine List.chain'_cons'.mpr ⟨?_, ih _⟩
        intro y hy
        exact runChunks_ge d cs _ y (List.mem_of_mem_head? hy)
      · simpa only [stepChunk, hm, if_neg hd] using ih last

/-- With a zero target duration no callback ever fires. -/
theorem runChunks_zero_dur (chunks : List String) :
    ∀ last, runChunks 0 last chunks = [] := by
  induction chunks with
  | nil => intro last; simp [runChunks]
  | cons c cs ih =>
    intro last
    unfold runChunks
    cases hm : parseTimeSec c with
    | none => simpa only [stepChunk, hm] using ih last
    | some sec => simp only [stepChunk, hm, if_neg (lt_irrefl (0 : ℚ))]; exact ih last

/-- C5: export progress reporting is clamped and monotone: every reported
ratio lies in the unit interval; the report stream is nondecreasing; a
chunk whose parsed time maps to a ratio at or below the running maximum
re-reports that maximum unchanged; a zero (or negative) trim duration
yields no reports at all; and a chunk without a parseable timestamp yields
no report. -/
theorem exportProgress_monotone_clamped :
    (∀ s e chunks, ∀ r ∈ exportReports s e chunks, 0 ≤ r ∧ r ≤ 1) ∧
    (∀ s e chunks, List.Chain' (· ≤ ·) (exportReports s e chunks)) ∧
    (∀ d last sec c cs, parseTimeSec c = some sec → 0 < d → min 1 (sec / d) ≤ last →
      runChunks d last (c :: cs) = last :: runChunks d last cs) ∧
    (∀ s e chunks, e - s ≤ 0 → exportReports s e chunks = []) ∧
    (∀ d last c cs, parseTimeSec c = none →
      runChunks d last (c :: cs) = runChunks d last cs) := by
  refine ⟨?_, ?_, ?_, ?_, ?_⟩
  · intro s e chunks r hr
    exact runChunks_bounds _ chunks 0 le_rfl zero_le_one r hr
  · intro s e chunks
    exact runChunks_chain _ chunks 0
  · intro d last sec c cs hm hd hle
    conv_lhs => rw [runChunks]
    simp only [stepChunk, hm, if_pos hd, max_eq_left hle]
  · intro s e chunks h
    unfold exportReports
    rw [max_eq_left h]
    exact runChunks_zero_dur chunks 0
  · intro d last c cs hm
    conv_lhs => rw [runChunks]
    simp only [stepChunk, hm]

/-- Witness for C5 at concrete chunks, durations and states. -/
theorem exportProgress_monotone_clamped_witness :
    (0 ≤ (1 : ℚ) / 2 ∧ (1 : ℚ) / 2 ≤ 1) ∧
    List.Chain' (· ≤ ·) (exportReports 0 1 ["time=0:0:0.5"]) ∧
    runChunks 2 1 ["time=0:0:1"] = 1 :: runChunks 2 1 [] ∧
    exportReports 3 3 ["time=0:0:1"] = [] ∧
    runChunks 1 0 ["frame= 10"] = runChunks 1 0 [] :=
  ⟨exportProgress_monotone_clamped.1 0 1 ["time=0:0:0.5"] (1 / 2) (by decide),
   exportProgress_monotone_clamped.2.1 0 1 ["time=0:0:0.5"],
   exportProgress_monotone_clamped.2.2.1 2 1 1 "time=0:0:1" [] (by decide) (by decide)
     (by decide),
   exportProgress_monotone_clamped.2.2.2.1 3 3 ["time=0:0:1"] (by decide),
   exportProgress_monotone_clamped.2.2.2.2 1 0 "frame= 10" [] (by decide)⟩

/-- JavaScript regular-expression whitespace class (the common members). -/
def jsWhitespaceB (c : Char) : Bool :=
  c = ' ' || c = '\t' || c = '\n' || c = '\r' || c = Char.ofNat 11 ||
  c = Char.ofNat 12 || c = Char.ofNat 160

/-- Match of the yt-dlp download percentage pattern (literal download tag,
whitespace, one to three digits with an optional fractional part, percent
sign) anchored at the head of the list; returns the captured integral and
fractional digit groups. A run of more than three digits cannot match at
this position: the bounded digit quantifier leaves a digit where the dot
or percent sign is required, whichever backtracking choice is taken. -/
def pctAt (l : List Char) : Option (List Char × List Char) :=
  match l with
  | '[' :: 'd' :: 'o' :: 'w' :: 'n' :: 'l' :: 'o' :: 'a' :: 'd' :: ']' :: r0 =>
    let ws := r0.takeWhile jsWhitespaceB
    let r1 := r0.dropWhile jsWhitespaceB
    if ws = [] then none else
    let d := r1.takeWhile Char.isDigit
    let r2 := r1.dropWhile Char.isDigit
    if d = [] ∨ 3 < d.length then none else
    match r2 with
    | '.' :: r3 =>
      let f := r3.takeWhile Char.isDigit
      let r4 := r3.dropWhile Char.isDigit
      if f = [] then none else
      match r4 with
      | '%' :: _ => some (d, f)
      | _ => none
    | '%' :: _ => some (d, [])
    | _ => none
  | _ => none

/-- Leftmost match of the download percentage pattern within a line. -/
def findPct : List Char → Option (List Char × List Char)
  | [] => none
  | c :: rest =>
    match pctAt (c :: rest) with
    | some v => some v
    | none => findPct rest

/-- Whether a list starts with a slash followed by the letter s. -/
def matchSlashS : List Char → Bool
  | '/' :: 's' :: _ => true
  | _ => false

/-- The last index of a slash-s pair inside a token that leaves at least
one character before it: the greedy nonspace run of the speed pattern
backtracks from the right, so the capture ends at the rightmost such
pair. -/
def lastSlashSIdx (t : List Char) : Option Nat :=
  ((List.range t.length).filter fun j => decide (1 ≤ j) && matchSlashS (t.drop j)).getLast?

/-- Match of the yt-dlp speed pattern (literal at, whitespace, a nonspace
run ending in slash-s) anchored at the head of the list; returns the
captured speed token. -/
def speedAt (l : List Char) : Option (List Char) :=
  match l with
  | 'a' :: 't' :: r0 =>
    let ws := r0.takeWhile jsWhitespaceB
    let r1 := r0.dropWhile jsWhitespaceB
    if ws = [] then none else
    let t := r1.takeWhile (fun c => !jsWhitespaceB c)
    if t = [] then none else
    match lastSlashSIdx t with
    | some j => some (t.take (j + 2))
    | none => none
  | _ => none

/-- Leftmost match of the speed pattern within a line. -/
def findSpeed : List Char → Option (List Char)
  | [] => none
  | c :: rest =>
    match speedAt (c :: rest) with
    | some v => some v
    | none => findSpeed rest

/-- Match of the yt-dlp ETA pattern (literal ETA, whitespace, a nonspace
run) anchored at the head of the list; returns the captured token. -/
def etaAt (l : List Char) : Option (List Char) :=
  match l with
  | 'E' :: 'T' :: 'A' :: r0 =>
    let ws := r0.takeWhile jsWhitespaceB
    let r1 := r0.dropWhile jsWhitespaceB
    if ws = [] then none else
    let t := r1.takeWhile (fun c => !jsWhitespaceB c)
    if t = [] then none else some t
  | _ => none

/-- Leftmost match of the ETA pattern within a line. -/
def findEta : List Char → Option (List Char)
  | [] => none
  | c :: rest =>
    match etaAt (c :: rest) with
    | some v => some v
    | none => findEta rest

/-- Download phase, from the downloader service DownloadProgress type. -/
inductive DlPhase where
  | downloading
  | merging
  | postprocessing
  | completed
  deriving DecidableEq

/-- DownloadProgress from the downloader service: a phase plus optional
ratio, speed and ETA fields. -/
structure DownloadProgress where
  phase : DlPhase
  ratio : Option ℚ := none
  speed : Option String := none
  eta : Option String := none
  deriving DecidableEq

/-- The stdout line handler of startDownload: a percentage line emits one
downloading event with the clamped ratio and the optionally captured speed
and ETA (and stops there); otherwise a merger marker emits a merging
event and an extract-audio or fixup marker emits a postprocessing event,
in that order. -/
def processLine (line : String) : List DownloadProgress :=
  match findPct line.data with
  | some (d, f) =>
    let pct := min 100 (parseFloatOfDigits d f)
    let speed := (findSpeed line.data).map String.mk
    let eta := (findEta line.data).map String.mk
    [{ phase := DlPhase.downloading, ratio := some (pct / 100), speed := speed, eta := eta }]
  | none =>
    (if hasSubstr (String.data "[Merger]") line.data
     then [{ phase := DlPhase.merging }] else []) ++
    (if hasSubstr (String.data "[ExtractAudio]") line.data ||
        hasSubstr (String.data "[Fixup") line.data
     then [{ phase := DlPhase.postprocessing }] else [])

/-- One whole startDownload run: the events emitted for each stdout line
in order, then on exit code zero a final completed event and success, and
on a nonzero exit a failure carrying the exit code. -/
def runDownload (lines : List String) (exitCode : Int) :
    List DownloadProgress × Except String Unit :=
  if exitCode = 0 then
    ((lines.map processLine).flatten ++ [{ phase := DlPhase.completed }], Except.ok ())
  else
    ((lines.map processLine).flatten,
     Except.error ("yt-dlp failed with code " ++ toString exitCode))

/-- C6: the scenario download line yields exactly one downloading event
with ratio 0.123, speed 2.50MiB per second and ETA 00:30; the following
merger line yields a merging event with no ratio; and exit code zero
appends a final completed event and resolves successfully. -/
theorem startDownload_scenario :
    (runDownload ["[download] 12.3% of 50.00MiB at 2.50MiB/s ETA 00:30",
                  "[Merger] Merging formats into out.mp4"] 0).1 =
      [{ phase := DlPhase.downloading, ratio := some (123 / 1000),
         speed := some "2.50MiB/s", eta := some "00:30" },
       { phase := DlPhase.merging },
       { phase := DlPhase.completed }] ∧
    (runDownload ["[download] 12.3% of 50.00MiB at 2.50MiB/s ETA 00:30",
                  "[Merger] Merging formats into out.mp4"] 0).2 = Except.ok () :=
  ⟨by decide, rfl⟩

/-- C10: a percentage above 100 (the pattern admits up to three integral
digits) is clamped to 100 before division, so the emitted downloading
ratio is exactly one there, and no emitted ratio ever exceeds one. -/
theorem downloadRatio_clamped :
    (∀ line d f, findPct line.data = some (d, f) → 100 < parseFloatOfDigits d f →
      processLine line =
        [{ phase := DlPhase.downloading, ratio := some 1,
           speed := (findSpeed line.data).map String.mk,
           eta := (findEta line.data).map String.mk }]) ∧
    (∀ line, ∀ ev ∈ processLine line, ∀ r, DownloadProgress.ratio ev = some r → r ≤ 1) := by
  constructor
  · intro line d f hfind hgt
    simp only [processLine, hfind]
    rw [min_eq_left (le_of_lt hgt)]
    norm_num
  · intro line ev hev r hr
    revert hev
    cases hfind : findPct line.data with
    | some df =>
      obtain ⟨d, f⟩ := df
      intro hev
      simp only [processLine, hfind, List.mem_singleton] at hev
      subst hev
      simp only [DownloadProgress.ratio, Option.some.injEq] at hr
      rw [← hr]
      exact (div_le_one (by norm_num)).mpr (min_le_left _ _)
    | none =>
      intro hev
      simp only [processLine, hfind] at hev
      rcases List.mem_append.mp hev with h | h <;> split_ifs at h <;>
        simp only [List.mem_singleton, List.not_mem_nil] at h <;>
        first
        | exact absurd h (by simp)
        | (subst h; simp only [DownloadProgress.ratio] at hr; exact absurd hr (by simp))

/-- Witness for C10 at a malformed 999.9 percent line. -/
theorem downloadRatio_clamped_witness :
    processLine "[download] 999.9% of 50.00MiB at 2.50MiB/s ETA 00:30" =
      [{ phase := DlPhase.downloading, ratio := some 1,
         speed := (findSpeed (String.data
           "[download] 999.9% of 50.00MiB at 2.50MiB/s ETA 00:30")).map String.mk,
         eta := (findEta (String.data
           "[download] 999.9% of 50.00MiB at 2.50MiB/s ETA 00:30")).map String.mk }] ∧
    (1 : ℚ) ≤ 1 :=
  ⟨downloadRatio_clamped.1 "[download] 999.9% of 50.00MiB at 2.50MiB/s ETA 00:30"
      ['9', '9', '9'] ['9'] (by decide) (by decide),
   downloadRatio_clamped.2 "[download] 999.9% of 50.00MiB at 2.50MiB/s ETA 00:30"
      { phase := DlPhase.downloading, ratio := some 1,
        speed := some "2.50MiB/s", eta := some "00:30" } (by decide) 1 rfl⟩

/-- Trim JavaScript whitespace from both ends (string-to-number coercion
first trims the input). -/
def trimWS (l : List Char) : List Char :=
  ((l.dropWhile jsWhitespaceB).reverse.dropWhile jsWhitespaceB).reverse

/-- Optional sign and exponent digits of a decimal literal; the whole rest
must be consumed. -/
def parseSignedExp (m : ℚ) (l : List Char) : Option ℚ :=
  let (sgn, r) := match l with
    | '+' :: r => ((1 : Int), r)
    | '-' :: r => ((-1 : Int), r)
    | r => ((1 : Int), r)
  let (ds, rest) := digitSpan r
  if ds = [] ∨ rest ≠ [] then none
  else some (m * (10 : ℚ) ^ (sgn * (natOfDigits ds : Int)))

/-- Optional exponent marker of a decimal literal. -/
def parseExpPart (m : ℚ) (l : List Char) : Option ℚ :=
  match l with
  | [] => some m
  | 'e' :: r => parseSignedExp m r
  | 'E' :: r => parseSignedExp m r
  | _ => none

/-- Unsigned decimal literal of a JavaScript string-to-number coercion:
digits, an optional dot with further digits (at least one digit in
total), and an optional exponent; the whole list must be consumed. -/
def parseDecimal (l : List Char) : Option ℚ :=
  let (d1, r1) := digitSpan l
  match r1 with
  | '.' :: r2 =>
    let (d2, r3) := digitSpan r2
    if d1 = [] ∧ d2 = [] then none
    else parseExpPart (parseFloatOfDigits d1 d2) r3
  | _ =>
    if d1 = [] then none else parseExpPart ((natOfDigits d1 : ℚ)) r1

/-- Hexadecimal digit test. -/
def isHexDigit (c : Char) : Bool :=
  c.isDigit || ('a' ≤ c && c ≤ 'f') || ('A' ≤ c && c ≤ 'F')

/-- Value of a hexadecimal digit. -/
def hexVal (c : Char) : Nat :=
  if c.isDigit then c.toNat - 48 else if 'a' ≤ c then c.toNat - 87 else c.toNat - 55

/-- Value of a digit run in a given radix. -/
def natOfRadixDigits (radix : Nat) (ds : List Char) : Nat :=
  ds.foldl (fun acc c => acc * radix + hexVal c) 0

/-- Radix-prefixed integer literal (hex, octal, binary) of a JavaScript
string-to-number coercion; no sign, fraction or exponent is admitted. -/
def parseRadix (radix : Nat) (isDig : Char → Bool) (l : List Char) : Option ℚ :=
  let ds := l.takeWhile isDig
  let rest := l.dropWhile isDig
  if ds = [] ∨ rest ≠ [] then none else some ((natOfRadixDigits radix ds : ℚ))

/-- JavaScript Number applied to a string, restricted to finite results:
none models NaN and both infinities, which equally fail the isFinite test
in the source. Whitespace is trimmed, an empty remainder coerces to zero,
a sign is admitted only on decimal and Infinity forms. -/
def jsNumberOfString (s : String) : Option ℚ :=
  let l := trimWS s.data
  match l with
  | [] => some 0
  | '+' :: r => if r = String.data "Infinity" then none else parseDecimal r
  | '-' :: r => if r = String.data "Infinity" then none else (parseDecimal r).map Neg.neg
  | '0' :: 'x' :: r => parseRadix 16 isHexDigit r
  | '0' :: 'X' :: r => parseRadix 16 isHexDigit r
  | '0' :: 'o' :: r => parseRadix 8 (fun c => '0' ≤ c && c ≤ '7') r
  | '0' :: 'O' :: r => parseRadix 8 (fun c => '0' ≤ c && c ≤ '7') r
  | '0' :: 'b' :: r => parseRadix 2 (fun c => c = '0' || c = '1') r
  | '0' :: 'B' :: r => parseRadix 2 (fun c => c = '0' || c = '1') r
  | _ => if l = String.data "Infinity" then none else parseDecimal l

/-- JavaScript String#split with a single-character separator. -/
def jsSplitChar (sep : Char) : List Char → List (List Char)
  | [] => [[]]
  | c :: rest =>
    if c = sep then [] :: jsSplitChar sep rest
    else match jsSplitChar sep rest with
      | p :: ps => (c :: p) :: ps
      | [] => [[c]]

/-- The parts of a fraction string split on the slash character. -/
def fracParts (s : String) : List String :=
  (jsSplitChar '/' s.data).map String.mk

/-- safeEvalFrac from the ffprobe service: split on the slash, coerce the
first two parts with Number (a missing second part is undefined, which
coerces to NaN), and return the quotient unless either part is nonfinite
or the denominator is zero. -/
def safeEvalFrac (frac : String) : Option ℚ :=
  let parts := fracParts frac
  let a := match parts[0]? with
    | some s => jsNumberOfString s
    | none => none
  let b := match parts[1]? with
    | some s => jsNumberOfString s
    | none => none
  match a, b with
  | some av, some bv => if bv = 0 then none else some (av / bv)
  | _, _ => none

/-- The fps computation of extractVideoMeta: use the average frame rate
field when it is present, nonempty and not the degenerate 0/0; otherwise
fall back to the real frame rate field under the same test; otherwise
unknown. -/
def extractFps (avgFrameRate rFrameRate : Option String) : Option ℚ :=
  match avgFrameRate with
  | some s =>
    if s ≠ "" ∧ s ≠ "0/0" then safeEvalFrac s
    else
      match rFrameRate with
      | some t => if t ≠ "" ∧ t ≠ "0/0" then safeEvalFrac t else none
      | none => none
  | none =>
    match rFrameRate with
    | some t => if t ≠ "" ∧ t ≠ "0/0" then safeEvalFrac t else none
    | none => none

/-- C7: fraction evaluation returns the exact quotient whenever both
components coerce to finite numbers and the denominator is nonzero, and
unknown when the denominator is zero, either component fails to coerce,
or the second component is missing; 30000/1001 evaluates to the exact
NTSC rate; and the fps extraction tries the average frame rate field
first, falling back to the real frame rate field exactly when the former
is absent, empty or the degenerate 0/0. -/
theorem safeEvalFrac_spec :
    (∀ s sa sb a b, (fracParts s)[0]? = some sa → (fracParts s)[1]? = some sb →
      jsNumberOfString sa = some a → jsNumberOfString sb = some b → b ≠ 0 →
      safeEvalFrac s = some (a / b)) ∧
    (∀ s sb, (fracParts s)[1]? = some sb → jsNumberOfString sb = some 0 →
      safeEvalFrac s = none) ∧
    (∀ s sa, (fracParts s)[0]? = some sa → jsNumberOfString sa = none →
      safeEvalFrac s = none) ∧
    (∀ s sb, (fracParts s)[1]? = some sb → jsNumberOfString sb = none →
      safeEvalFrac s = none) ∧
    (∀ s, (fracParts s)[1]? = none → safeEvalFrac s = none) ∧
    safeEvalFrac "30000/1001" = some (30000 / 1001) ∧
    safeEvalFrac "0/0" = none ∧
    (∀ r, extractFps (some "0/0") r =
      (match r with
       | some t => if t ≠ "" ∧ t ≠ "0/0" then safeEvalFrac t else none
       | none => none)) ∧
    (∀ s r, s ≠ "" → s ≠ "0/0" → extractFps (some s) r = safeEvalFrac s) := by
  refine ⟨?_, ?_, ?_, ?_, ?_, by decide, by decide, ?_, ?_⟩
  · intro s sa sb a b ha hb hA hB hbz
    simp [safeEvalFrac, ha, hb, hA, hB, hbz]
  · intro s sb hb hB
    simp only [safeEvalFrac, hb, hB]
    split <;> simp_all
  · intro s sa ha hA
    simp [safeEvalFrac, ha, hA]
  · intro s sb hb hB
    simp only [safeEvalFrac, hb, hB]
    split <;> simp_all
  · intro s hb
    simp only [safeEvalFrac, hb]
    split <;> simp_all
  · intro r
    simp [extractFps]
  · intro s r h1 h2
    simp [extractFps, h1, h2]

/-- Witness for C7 at concrete fractions. -/
theorem safeEvalFrac_spec_witness :
    safeEvalFrac "30000/1001" = some ((30000 : ℚ) / 1001) ∧
    safeEvalFrac "24/0" = none ∧
    safeEvalFrac "x/2" = none ∧
    extractFps (some "24/1") none = safeEvalFrac "24/1" :=
  ⟨safeEvalFrac_spec.1 "30000/1001" "30000" "1001" 30000 1001 (by decide) (by decide)
      (by decide) (by decide) (by decide),
   safeEvalFrac_spec.2.1 "24/0" "0" (by decide) (by decide),
   safeEvalFrac_spec.2.2.1 "x/2" "x" (by decide) (by decide),
   safeEvalFrac_spec.2.2.2.2.2.2.2.2 "24/1" none (by decide) (by decide)⟩

/-- Terminal event of a spawned subprocess: a close with an exit code, or
a spawn error carrying the launch error. -/
inductive ProcEnd where
  | closed (code : Int)
  | errored (err : String)
  deriving DecidableEq

/-- The settlement of the promise returned by exportWithProgress: the
close handler resolves on exit code zero and otherwise rejects with the
transcode failure message carrying the code; the error handler rejects
with the launch error. -/
def exportSettle : ProcEnd → Except String Unit
  | ProcEnd.closed code =>
    if code = 0 then Except.ok ()
    else Except.error ("ffmpeg failed with code " ++ toString code)
  | ProcEnd.errored e => Except.error e

/-- C8: the export operation resolves exactly when the transcoder exits
with code zero; every nonzero exit rejects with the transcode failure
carrying that code, and a spawn failure rejects with the launch error. -/
theorem exportSettle_spec :
    (∀ pe, exportSettle pe = Except.ok () ↔ pe = ProcEnd.closed 0) ∧
    (∀ code, code ≠ 0 → exportSettle (ProcEnd.closed code) =
      Except.error ("ffmpeg failed with code " ++ toString code)) ∧
    (∀ e, exportSettle (ProcEnd.errored e) = Except.error e) := by
  refine ⟨?_, ?_, ?_⟩
  · intro pe
    cases pe with
    | closed code =>
      by_cases hc : code = 0
      · subst hc; simp [exportSettle]
      · simp [exportSettle, hc]
    | errored e => simp [exportSettle]
  · intro code hc
    simp [exportSettle, hc]
  · intro e
    rfl

/-- Witness for C8 at concrete process terminations. -/
theorem exportSettle_spec_witness :
    exportSettle (ProcEnd.closed 0) = Except.ok () ∧
    exportSettle (ProcEnd.closed 1) = Except.error ("ffmpeg failed with code " ++ toString (1 : Int)) ∧
    exportSettle (ProcEnd.errored "spawn ENOENT") = Except.error "spawn ENOENT" :=
  ⟨(exportSettle_spec.1 (ProcEnd.closed 0)).mpr rfl,
   exportSettle_spec.2.1 1 (by decide),
   exportSettle_spec.2.2 "spawn ENOENT"⟩

/-- Filesystem-visible steps of the export IPC handler, in order. -/
inductive FsAction where
  | writeTmp (path : String)
  | runExport
  | unlink (path : String)
  deriving DecidableEq

/-- JavaScript line terminators, which the dot of the data-URL pattern
does not match. -/
def isLineTerminator (c : Char) : Bool :=
  c = '\n' || c = '\r' || c = Char.ofNat 0x2028 || c = Char.ofNat 0x2029

/-- The anchored PNG data-URL pattern of the export handler: the literal
prefix, then a nonempty payload of non-line-terminator characters
reaching the end of the string. -/
def dataUrlPngPayload (s : String) : Option String :=
  if hasPrefixL (String.data "data:image/png;base64,") s.data then
    let rest := s.data.drop (String.data "data:image/png;base64,").length
    if rest ≠ [] ∧ rest.all (fun c => !isLineTerminator c) then some (String.mk rest)
    else none
  else none

/-- The export IPC handler of the main process: when the request carries a
matching PNG data URL, a temporary raster file is written and recorded;
the export then runs; the finally block unlinks the recorded temporary
file whatever the export outcome, and the outcome is propagated
unchanged. -/
def exportStartHandler (wmImageDataUrl : Option String) (tmpName : String)
    (exportOutcome : Except String Unit) : List FsAction × Except String Unit :=
  let wmPath : Option String :=
    match wmImageDataUrl with
    | some url =>
      match dataUrlPngPayload url with
      | some _ => some tmpName
      | none => none
    | none => none
  let acquire : List FsAction :=
    match wmPath with
    | some p => [FsAction.writeTmp p]
    | none => []
  let release : List FsAction :=
    match wmPath with
    | some p => [FsAction.unlink p]
    | none => []
  (acquire ++ [FsAction.runExport] ++ release, exportOutcome)

/-- C9: whenever the handler materializes a temporary raster file, that
file is unlinked after the export step regardless of the export outcome,
and every written temporary is always unlinked. -/
theorem exportHandler_cleanup :
    (∀ url tmp outcome payload, dataUrlPngPayload url = some payload →
      exportStartHandler (some url) tmp outcome =
        ([FsAction.writeTmp tmp, FsAction.runExport, FsAction.unlink tmp], outcome)) ∧
    (∀ wm tmp outcome p,
      FsAction.writeTmp p ∈ (exportStartHandler wm tmp outcome).1 →
      FsAction.unlink p ∈ (exportStartHandler wm tmp outcome).1) ∧
    (∀ wm tmp outcome, (exportStartHandler wm tmp outcome).2 = outcome) := by
  refine ⟨?_, ?_, ?_⟩
  · intro url tmp outcome payload h
    simp [exportStartHandler, h]
  · intro wm tmp outcome p hmem
    cases hw : wm with
    | none =>
      rw [hw] at hmem
      simp [exportStartHandler] at hmem
    | some url =>
      rw [hw] at hmem
      cases hp : dataUrlPngPayload url with
      | none => simp [exportStartHandler, hp] at hmem
      | some payload =>
        simp [exportStartHandler, hp] at hmem
        simp [exportStartHandler, hp, hmem]
  · intro wm tmp outcome
    rfl

/-- Witness for C9 at a concrete data URL and a failing export. -/
theorem exportHandler_cleanup_witness :
    exportStartHandler (some "data:image/png;base64,iVBORw0KGgo=") "wm_1.png"
        (Except.error "ffmpeg failed with code 1") =
      ([FsAction.writeTmp "wm_1.png", FsAction.runExport, FsAction.unlink "wm_1.png"],
       Except.error "ffmpeg failed with code 1") ∧
    FsAction.unlink "wm_1.png" ∈
      (exportStartHandler (some "data:image/png;base64,iVBORw0KGgo=") "wm_1.png"
        (Except.ok ())).1 :=
  ⟨exportHandler_cleanup.1 "data:image/png;base64,iVBORw0KGgo=" "wm_1.png"
      (Except.error "ffmpeg failed with code 1") "iVBORw0KGgo=" (by decide),
   exportHandler_cleanup.2.1 (some "data:image/png;base64,iVBORw0KGgo=") "wm_1.png"
      (Except.ok ()) "wm_1.png" (by decide)⟩
